import Mathlib

/-!
Verification of the smart_screen repository's core behaviors.

The definitions below are shallow embeddings of the Python source:
* `src/main.py`    — websocket registry (`active_connections`, `websocket_endpoint`)
                     and the broadcast loop inside `upload_file`;
* `src/fake_pi.py` — the device's `download_file` cache/fetch logic and the
                     `on_message` notification parser;
* `src/play_server.py` — `load_media_queue`, `mark_as_played_in_queue`,
                     `get_next_media` of `RaspberryMediaPlayer`.

Machine-level effects (sockets, real files, HTTP) are modelled by explicit
state: a filesystem record, a network-outcome parameter, and Python
exceptions as `Except String` / `Option` results.
-/

/-! ## Server model (`src/main.py`) -/

/-- One websocket handle held in `active_connections`.  `isOpen = false`
models a handle whose `send_text` raises (already closed peer). -/
structure Conn where
  id : Nat
  isOpen : Bool
deriving DecidableEq

/-- The `for ws in active_connections: await ws.send_text(...)` loop of
`upload_file` (src/main.py lines 142-145).  Returns the ids that received the
message, in order, and `some n` with the final value of `notified` when the
loop completes, or `none` when a send raised (there is no try/except around
the individual send, so the first failing send aborts the loop). -/
def broadcastRun : List Conn → List Nat × Option Nat
  | [] => ([], some 0)
  | c :: rest =>
    if c.isOpen then
      match broadcastRun rest with
      | (sent, some n) => (c.id :: sent, some (n + 1))
      | (sent, none) => (c.id :: sent, none)
    else ([], none)

/-- The value returned by the `/upload` handler: either the success payload
(whose `notified_screens` field is the count), or the error payload built in
the `except Exception` branch. -/
inductive UploadResp
  | uploaded (notified : Nat)
  | errorResp
deriving DecidableEq

/-- Broadcast phase of `upload_file` (src/main.py lines 139-178): runs the
send loop over `active_connections`; an exception from a send is caught only
by the handler-wide `except`, which returns the error payload.  The third
component is `active_connections` afterwards — the loop never mutates it. -/
def upload_file_broadcast (active_connections : List Conn) :
    UploadResp × List Nat × List Conn :=
  match broadcastRun active_connections with
  | (sent, some n) => (.uploaded n, sent, active_connections)
  | (sent, none) => (.errorResp, sent, active_connections)

/-- Registry-affecting events of `websocket_endpoint` (src/main.py 69-106). -/
inductive WsEvent
  | connected (c : Nat)
  | disconnected (c : Nat)
  | readError (c : Nat)
deriving DecidableEq

/-- Effect of one `websocket_endpoint` lifecycle event on
`active_connections`: `accept` appends (line 78); `WebSocketDisconnect`
removes after a membership check (lines 91-93); the generic
`except Exception` branch (lines 101-106) only logs — it does not remove. -/
def websocket_endpoint_step (active_connections : List Nat) : WsEvent → List Nat
  | .connected c => active_connections ++ [c]
  | .disconnected c =>
    if c ∈ active_connections then active_connections.erase c
    else active_connections
  | .readError _ => active_connections

lemma broadcastRun_all_open (conns : List Conn)
    (h : ∀ x ∈ conns, x.isOpen = true) :
    broadcastRun conns = (conns.map (fun c => c.id), some conns.length) := by
  induction conns with
  | nil => rfl
  | cons c rest ih =>
    have hc : c.isOpen = true := h c (List.mem_cons_self c rest)
    have hrest : ∀ x ∈ rest, x.isOpen = true := fun x hx => h x (List.mem_cons_of_mem c hx)
    simp [broadcastRun, hc, ih hrest]

lemma broadcastRun_first_closed (front post : List Conn) (c : Conn)
    (hfront : ∀ x ∈ front, x.isOpen = true) (hc : c.isOpen = false) :
    broadcastRun (front ++ c :: post) = (front.map (fun x => x.id), none) := by
  induction front with
  | nil => simp [broadcastRun, hc]
  | cons a rest ih =>
    have ha : a.isOpen = true := hfront a (List.mem_cons_self a rest)
    have hrest : ∀ x ∈ rest, x.isOpen = true :=
      fun x hx => hfront x (List.mem_cons_of_mem a hx)
    simp [broadcastRun, ha, ih hrest]

/-! ## Claims C1 and C4 -/

/-- Claim C1 counterexample: with two registered connections, the first of
which is already closed, the broadcast loop aborts at the closed handle: the
other connection receives nothing and the handler returns the error payload —
not `notified_screens = 1`. -/
theorem upload_file_broadcast_cex :
    upload_file_broadcast [⟨1, false⟩, ⟨2, true⟩] =
      (.errorResp, [], [⟨1, false⟩, ⟨2, true⟩]) ∧
    upload_file_broadcast [⟨1, false⟩, ⟨2, true⟩] ≠
      (.uploaded 1, [2], [⟨1, false⟩, ⟨2, true⟩]) := by
  constructor
  · rfl
  · decide

/-- Claim C1 (amended): sends succeed only for the handles preceding the first
closed one; at the first closed handle the send raises, the loop aborts
(handles after it receive nothing) and the handler returns the error payload
instead of `notified_screens`.  Only when every registered handle is open does
the response report `notified_screens = N`, with all N handles receiving the
message.  The loop never mutates the registry. -/
theorem upload_file_broadcast_spec (front post conns : List Conn) (c : Conn)
    (hfront : ∀ x ∈ front, x.isOpen = true) (hc : c.isOpen = false)
    (hconns : ∀ x ∈ conns, x.isOpen = true) :
    upload_file_broadcast (front ++ c :: post) =
      (.errorResp, front.map (fun x => x.id), front ++ c :: post) ∧
    upload_file_broadcast conns =
      (.uploaded conns.length, conns.map (fun x => x.id), conns) := by
  constructor
  · simp [upload_file_broadcast, broadcastRun_first_closed front post c hfront hc]
  · simp [upload_file_broadcast, broadcastRun_all_open conns hconns]

/-- Claim C1 witness: three handles with the middle one closed — the first
receives the message, the third does not, and the handler reports an error;
and with two open handles, both receive and `notified_screens = 2`. -/
theorem upload_file_broadcast_spec_w :
    upload_file_broadcast [⟨1, true⟩, ⟨2, false⟩, ⟨3, true⟩] =
      (.errorResp, [1], [⟨1, true⟩, ⟨2, false⟩, ⟨3, true⟩]) ∧
    upload_file_broadcast [⟨4, true⟩, ⟨5, true⟩] =
      (.uploaded 2, [4, 5], [⟨4, true⟩, ⟨5, true⟩]) := by
  have h := upload_file_broadcast_spec [⟨1, true⟩] [⟨3, true⟩]
    [⟨4, true⟩, ⟨5, true⟩] ⟨2, false⟩ (by decide) (by decide) (by decide)
  exact ⟨h.1, h.2⟩

/-- Claim C4 counterexample: a connection whose read loop terminates with a
generic error (the `except Exception` branch) is NOT removed from
`active_connections` — the registry keeps the dead connection, violating the
claimed liveness invariant.  Likewise, a failed broadcast send leaves the
closed handle registered. -/
theorem websocket_endpoint_step_cex :
    websocket_endpoint_step [7] (.readError 7) = [7] ∧
    7 ∈ websocket_endpoint_step [7] (.readError 7) ∧
    (upload_file_broadcast [⟨7, false⟩]).2.2 = [⟨7, false⟩] := by
  refine ⟨rfl, by decide, rfl⟩

/-- Claim C4 (amended): an entry is appended on successful handshake and
removed only by the `WebSocketDisconnect` handler (removal is a guarded
first-occurrence erase, a no-op when the handle is absent); the generic
read-loop error branch leaves the registry unchanged, and the broadcast loop
never mutates it — so after a generic read-loop error or a failed broadcast
send the dead connection is still registered. -/
theorem websocket_endpoint_step_spec (reg : List Nat) (c : Nat) :
    websocket_endpoint_step reg (.connected c) = reg ++ [c] ∧
    websocket_endpoint_step reg (.disconnected c) = reg.erase c ∧
    websocket_endpoint_step reg (.readError c) = reg ∧
    (∀ conns : List Conn, (upload_file_broadcast conns).2.2 = conns) := by
  refine ⟨rfl, ?_, rfl, ?_⟩
  · by_cases h : c ∈ reg
    · simp [websocket_endpoint_step, h]
    · simp [websocket_endpoint_step, h, List.erase_of_not_mem h]
  · intro conns
    unfold upload_file_broadcast
    rcases hb : broadcastRun conns with ⟨sent, res⟩
    cases res <;> rfl

/-! ## Device fetch model (`src/fake_pi.py`, `download_file`) -/

/-- `STORAGE_DIR` of src/fake_pi.py line 15. -/
def STORAGE_DIR : String := "device_storage"

/-- `os.path.join(a, b)` for a relative final component: appends a separator,
and with `b = ""` yields `a` followed by a trailing separator (Python:
`os.path.join("device_storage", "") = "device_storage/"`). -/
def pyJoin (a b : String) : String :=
  if b = "" then a ++ "/" else a ++ "/" ++ b

/-- The device's local filesystem: the set of existing directories and a map
from path to file bytes. -/
structure FS where
  dirs : List String
  files : List (String × List Nat)
deriving DecidableEq

/-- `os.path.exists`: true for a stored file path, and for a directory with or
without a trailing separator. -/
def FS.existsPath (fs : FS) (p : String) : Bool :=
  fs.files.any (fun kv => kv.1 = p) || fs.dirs.any (fun d => d = p || d ++ "/" = p)

/-- `open(p, "wb")` followed by writing `content`: creates or truncates the
file at `p`. -/
def FS.setFile (fs : FS) (p : String) (content : List Nat) : FS :=
  { fs with files := (p, content) :: fs.files.filter (fun kv => kv.1 ≠ p) }

/-- Read back the bytes stored at `p`, if any. -/
def FS.getFile (fs : FS) (p : String) : Option (List Nat) :=
  (fs.files.find? (fun kv => kv.1 = p)).map (fun kv => kv.2)

/-- Outcome of the network for one `requests.get(..., stream=True)` call:
either the request raises `Timeout`, or `raise_for_status` raises `HTTPError`,
or a body is streamed — `chunks` are the chunks yielded by `iter_content`
before the connection either completes (`fault = false`) or raises a
transport fault after the last yielded chunk (`fault = true`). -/
inductive NetOutcome
  | timeoutRaised
  | httpErrorRaised
  | stream (chunks : List (List Nat)) (fault : Bool)
deriving DecidableEq

/-- How `download_file` finished: immediately via the cache check, fully
successfully, or in one of its three `except` branches. -/
inductive DownloadResult
  | cacheHit
  | success
  | timeoutErr
  | httpErr
  | streamFault
deriving DecidableEq

/-- State after a `download_file` call: resulting filesystem, how many
network requests were issued (0 or 1), and how the call finished. -/
structure DownloadOut where
  fs : FS
  netCalls : Nat
  result : DownloadResult
deriving DecidableEq

/-- `download_file` (src/fake_pi.py lines 30-107).  Cache check first: if
`os.path.join(STORAGE_DIR, filename)` exists, return with no request and no
write.  Otherwise issue the GET; `Timeout`/`HTTPError` are raised before the
local file is opened, so they leave the filesystem untouched; once streaming
starts the file is opened ("wb") at its final path and each non-empty chunk
is appended, so a transport fault mid-stream (caught by `except Exception`)
leaves the partially written file in place.  Every exception is caught, so
the function always returns. -/
def download_file (fs : FS) (filename : String) (net : NetOutcome) : DownloadOut :=
  let local_path := pyJoin STORAGE_DIR filename
  if fs.existsPath local_path then ⟨fs, 0, .cacheHit⟩
  else
    match net with
    | .timeoutRaised => ⟨fs, 1, .timeoutErr⟩
    | .httpErrorRaised => ⟨fs, 1, .httpErr⟩
    | .stream chunks fault =>
      ⟨fs.setFile local_path ((chunks.filter (fun c => c ≠ [])).flatten), 1,
        if fault then .streamFault else .success⟩

lemma FS.existsPath_setFile_self (fs : FS) (p : String) (content : List Nat) :
    (fs.setFile p content).existsPath p = true := by
  simp [FS.setFile, FS.existsPath]

lemma FS.getFile_setFile_self (fs : FS) (p : String) (content : List Nat) :
    (fs.setFile p content).getFile p = some content := by
  simp [FS.setFile, FS.getFile, List.find?]

lemma download_file_netCalls_le (fs : FS) (filename : String) (net : NetOutcome) :
    (download_file fs filename net).netCalls ≤ 1 := by
  unfold download_file
  cases hb : fs.existsPath (pyJoin STORAGE_DIR filename)
  · cases net <;> simp [hb]
  · simp [hb]

/-! ## Claims C3, C6 and C10 -/

/-- Claim C3 counterexample: on a cache miss, a transport fault after the
first two chunks were streamed leaves the partially written file at
`storageDir/filename` — the fetch failed, yet the path now exists and would
satisfy a later cache-hit check. -/
theorem download_file_atomicity_cex :
    (download_file ⟨["device_storage"], []⟩ "ad1.png"
        (.stream [[1, 2], [3]] true)).result = .streamFault ∧
    (download_file ⟨["device_storage"], []⟩ "ad1.png"
        (.stream [[1, 2], [3]] true)).fs.existsPath
      (pyJoin STORAGE_DIR "ad1.png") = true ∧
    (download_file ⟨["device_storage"], []⟩ "ad1.png"
        (.stream [[1, 2], [3]] true)).fs.getFile
      (pyJoin STORAGE_DIR "ad1.png") = some [1, 2, 3] := by
  refine ⟨rfl, by decide, rfl⟩

/-- Claim C3 (amended): a fetch that fails on the initial request — timeout or
non-2xx status, both raised before the local file is opened — leaves the
filesystem untouched; but a transport fault partway through streaming leaves
the partially written file at `storageDir/filename` (the code streams straight
into the final path), and that partial file satisfies a later cache-hit
check. -/
theorem download_file_failure_spec (fs : FS) (filename : String)
    (chunks : List (List Nat))
    (h : fs.existsPath (pyJoin STORAGE_DIR filename) = false) :
    download_file fs filename .timeoutRaised = ⟨fs, 1, .timeoutErr⟩ ∧
    download_file fs filename .httpErrorRaised = ⟨fs, 1, .httpErr⟩ ∧
    (download_file fs filename (.stream chunks true)).result = .streamFault ∧
    (download_file fs filename (.stream chunks true)).fs.existsPath
      (pyJoin STORAGE_DIR filename) = true ∧
    (download_file fs filename (.stream chunks true)).fs.getFile
      (pyJoin STORAGE_DIR filename) =
      some ((chunks.filter (fun c => c ≠ [])).flatten) := by
  refine ⟨?_, ?_, ?_, ?_, ?_⟩ <;>
    simp [download_file, h, FS.existsPath_setFile_self, FS.getFile_setFile_self]

/-- Claim C3 witness: with an empty device storage, a timeout fetch of
`a.png` leaves the filesystem unchanged, and a faulted stream leaves the
half-written file present. -/
theorem download_file_failure_spec_w :
    download_file ⟨["device_storage"], []⟩ "a.png" .timeoutRaised =
      ⟨⟨["device_storage"], []⟩, 1, .timeoutErr⟩ ∧
    (download_file ⟨["device_storage"], []⟩ "a.png"
        (.stream [[5]] true)).fs.existsPath
      (pyJoin STORAGE_DIR "a.png") = true := by
  have h := download_file_failure_spec ⟨["device_storage"], []⟩ "a.png" [[5]]
    (by decide)
  exact ⟨h.1, h.2.2.2.1⟩

/-- Claim C6 counterexample: if the first fetch of `a.png` times out (no file
is created), the second fetch is a cache miss again — two successive calls
issue two network requests, refuting "at most one network call". -/
theorem download_file_two_calls_cex :
    (download_file ⟨["device_storage"], []⟩ "a.png" .timeoutRaised).netCalls +
      (download_file
        (download_file ⟨["device_storage"], []⟩ "a.png" .timeoutRaised).fs
        "a.png" .timeoutRaised).netCalls = 2 := by
  decide

lemma download_file_cacheHit (fs : FS) (filename : String) (net : NetOutcome)
    (h : fs.existsPath (pyJoin STORAGE_DIR filename) = true) :
    download_file fs filename net = ⟨fs, 0, .cacheHit⟩ := by
  simp [download_file, h]

/-- Claim C6 (amended): the cache-hit half of the claim holds — when the local
path exists, `download_file` returns immediately with no network call and no
write; and whenever the first of two successive calls leaves the file present
(a successful download, a mid-stream fault that wrote a partial file, or a
pre-existing file), the second call is a pure cache hit: no network call and a
byte-identical filesystem.  Two successive calls issue at most two network
requests; "at most one" fails only when the first call fails before creating
the file. -/
theorem download_file_idempotent_spec (fs : FS) (filename : String)
    (n1 n2 : NetOutcome) :
    (fs.existsPath (pyJoin STORAGE_DIR filename) = true →
      download_file fs filename n1 = ⟨fs, 0, .cacheHit⟩) ∧
    ((download_file fs filename n1).fs.existsPath
        (pyJoin STORAGE_DIR filename) = true →
      download_file (download_file fs filename n1).fs filename n2 =
        ⟨(download_file fs filename n1).fs, 0, .cacheHit⟩) ∧
    (download_file fs filename n1).netCalls +
      (download_file (download_file fs filename n1).fs filename n2).netCalls ≤ 2 := by
  refine ⟨?_, ?_, ?_⟩
  · intro h
    exact download_file_cacheHit fs filename n1 h
  · intro h
    exact download_file_cacheHit (download_file fs filename n1).fs filename n2 h
  · have h1 := download_file_netCalls_le fs filename n1
    have h2 := download_file_netCalls_le (download_file fs filename n1).fs filename n2
    omega

/-- Claim C6 witness: with `a.png` already cached, a fetch is a pure cache
hit — no network call and the filesystem unchanged. -/
theorem download_file_idempotent_spec_w :
    download_file ⟨["device_storage"], [("device_storage/a.png", [9])]⟩ "a.png"
        .timeoutRaised =
      ⟨⟨["device_storage"], [("device_storage/a.png", [9])]⟩, 0, .cacheHit⟩ := by
  exact (download_file_idempotent_spec
    ⟨["device_storage"], [("device_storage/a.png", [9])]⟩ "a.png"
    .timeoutRaised .timeoutRaised).1 (by decide)

/-- Claim C10: fetching the empty filename resolves the local path to the
storage directory itself (`os.path.join` appends only the separator), which
exists whenever the startup `os.makedirs(STORAGE_DIR)` has run — so the call
returns immediately as a cache hit, with no network request and no write. -/
theorem download_file_empty_filename_spec (fs : FS) (net : NetOutcome)
    (h : STORAGE_DIR ∈ fs.dirs) :
    download_file fs "" net = ⟨fs, 0, .cacheHit⟩ := by
  have hex : fs.existsPath (pyJoin STORAGE_DIR "") = true := by
    simp only [pyJoin, if_pos rfl, FS.existsPath, Bool.or_eq_true, List.any_eq_true,
      decide_eq_true_eq]
    exact Or.inr ⟨STORAGE_DIR, h, Or.inr rfl⟩
  simp [download_file, hex]

/-- Claim C10 witness: on a freshly initialized device (storage directory
present, no files), fetching `""` is a cache hit even when the network would
time out. -/
theorem download_file_empty_filename_spec_w :
    download_file ⟨["device_storage"], []⟩ "" .timeoutRaised =
      ⟨⟨["device_storage"], []⟩, 0, .cacheHit⟩ := by
  exact download_file_empty_filename_spec ⟨["device_storage"], []⟩ .timeoutRaised
    (by decide)

/-! ## Device notification parser (`src/fake_pi.py`, `on_message`) -/

/-- Worker for Python's `str.replace(pat, "")`: scans left to right; when not
inside a previously matched span (`skip = 0`) and `pat` matches at the current
position, the whole match is consumed (scanning resumes after it, so matches
never overlap); otherwise the character is kept.  `skip` counts characters of
a recognized match still to be consumed. -/
def removeAllGo (pat : List Char) : List Char → Nat → List Char
  | [], _ => []
  | _ :: rest, skip + 1 => removeAllGo pat rest skip
  | c :: rest, 0 =>
    if pat.isPrefixOf (c :: rest) then removeAllGo pat rest (pat.length - 1)
    else c :: removeAllGo pat rest 0

/-- Python `s.replace(pat, "")`: every non-overlapping occurrence of `pat`
removed, leftmost first. -/
def pyRemoveAll (pat s : List Char) : List Char :=
  removeAllGo pat s 0

/-- Python `str.strip()` whitespace test (ASCII whitespace). -/
def isPySpace (c : Char) : Bool :=
  c = ' ' || c = '\t' || c = '\n' || c = '\r' || c = '\x0b' || c = '\x0c'

/-- Python `s.strip()`: remove leading and trailing whitespace. -/
def pyStrip (s : List Char) : List Char :=
  ((s.dropWhile isPySpace).reverse.dropWhile isPySpace).reverse

/-- The literal `"NEW_CONTENT:"` used by `on_message`. -/
def newContentTag : List Char := "NEW_CONTENT:".data

/-- What the device does with one inbound websocket text. -/
inductive DeviceAction
  | fetch (filename : List Char)
  | logUnknown (raw : List Char)
deriving DecidableEq

/-- `on_message` (src/fake_pi.py lines 119-143): if the text starts with
`NEW_CONTENT:`, the filename passed to `download_file` is
`message.replace("NEW_CONTENT:", "").strip()` — note `replace`, which removes
every occurrence, not just the leading one; otherwise the message is only
logged as unknown. -/
def on_message (raw : List Char) : DeviceAction :=
  if newContentTag.isPrefixOf raw then
    .fetch (pyStrip (pyRemoveAll newContentTag raw))
  else .logUnknown raw

lemma isPrefixOf_append_self (l t : List Char) : l.isPrefixOf (l ++ t) = true := by
  induction l with
  | nil => simp [List.isPrefixOf]
  | cons a l ih => simp [List.isPrefixOf, ih]

lemma removeAllGo_skip_append (pat l t : List Char) :
    removeAllGo pat (l ++ t) l.length = removeAllGo pat t 0 := by
  induction l with
  | nil => rfl
  | cons a l ih => simp [removeAllGo, ih]

lemma pyRemoveAll_append_self (pat t : List Char) (hpat : pat ≠ []) :
    pyRemoveAll pat (pat ++ t) = pyRemoveAll pat t := by
  cases pat with
  | nil => exact absurd rfl hpat
  | cons p ps =>
    show removeAllGo (p :: ps) (p :: (ps ++ t)) 0 = removeAllGo (p :: ps) t 0
    rw [removeAllGo]
    rw [if_pos (show (p :: ps).isPrefixOf (p :: (ps ++ t)) = true from
      isPrefixOf_append_self (p :: ps) t)]
    simp only [List.length_cons, Nat.add_sub_cancel]
    exact removeAllGo_skip_append (p :: ps) ps t

/-! ## Claim C5 -/

/-- Claim C5 counterexample: for a message whose remainder itself contains the
substring `NEW_CONTENT:`, the code's `str.replace` removes that inner
occurrence too: `on_message "NEW_CONTENT: aNEW_CONTENT:b.png"` triggers a
fetch of `"ab.png"`, not of `"aNEW_CONTENT:b.png"` as the claim (remove the
prefix once, then trim) predicts. -/
theorem on_message_replace_cex :
    on_message ("NEW_CONTENT: aNEW_CONTENT:b.png").data =
      .fetch ("ab.png").data ∧
    ("ab.png").data ≠ ("aNEW_CONTENT:b.png").data := by
  constructor
  · rfl
  · decide

/-- Claim C5 (amended): for raw text starting with `NEW_CONTENT:`, the parsed
filename is the text with EVERY occurrence of `NEW_CONTENT:` removed
(`str.replace` removes all occurrences, so inner occurrences in the remainder
disappear as well) and surrounding whitespace trimmed, and a fetch of that
filename is triggered; text not starting with the prefix only gets logged as
unknown, with no fetch.  In particular
`on_message "NEW_CONTENT: ad1.png "` fetches `"ad1.png"` and
`on_message "hello"` logs unknown. -/
theorem on_message_parse_spec (raw rest : List Char) :
    (raw = newContentTag ++ rest →
      on_message raw = .fetch (pyStrip (pyRemoveAll newContentTag rest))) ∧
    (newContentTag.isPrefixOf raw = false → on_message raw = .logUnknown raw) := by
  constructor
  · intro h
    subst h
    rw [on_message, if_pos (isPrefixOf_append_self newContentTag rest),
      pyRemoveAll_append_self newContentTag rest (by decide)]
  · intro h
    rw [on_message, if_neg (by simp [h])]

/-- Claim C5 witness: the spec's two examples —
`on_message "NEW_CONTENT: ad1.png "` fetches `"ad1.png"`, and
`on_message "hello"` only logs the unknown message. -/
theorem on_message_parse_spec_w :
    on_message ("NEW_CONTENT: ad1.png ").data = .fetch ("ad1.png").data ∧
    on_message ("hello").data = .logUnknown ("hello").data := by
  constructor
  · have h := (on_message_parse_spec ("NEW_CONTENT: ad1.png ").data
      (" ad1.png ").data).1 (by decide)
    rw [h]
    rfl
  · exact (on_message_parse_spec ("hello").data []).2 (by decide)

/-! ## Playback player model (`src/play_server.py`, `RaspberryMediaPlayer`) -/

/-- One element of the JSON queue file
(`{path, type, name, played, played_at}`); `played_at` is a timestamp,
modelled as a number. -/
structure QueueItem where
  path : String
  mtype : String
  name : String
  played : Bool
  playedAt : Option Nat
deriving DecidableEq

/-- One entry of the `scan_local_media()` result
(`{path, type, name}`). -/
structure MediaItem where
  path : String
  mtype : String
  name : String
deriving DecidableEq

/-- Contents of `queue/media_queue.json` when the file is present: either a
JSON array of queue items, or text `json.load` rejects (raising an error). -/
inductive QFileContents
  | wellFormed (items : List QueueItem)
  | malformed (err : String)
deriving DecidableEq

/-- `json.load` on the queue file: the parsed array, or a raised
`JSONDecodeError`. -/
def jsonLoadQueue : QFileContents → Except String (List QueueItem)
  | .wellFormed items => .ok items
  | .malformed err => .error err

/-- `load_media_queue` (src/play_server.py lines 74-88).  The whole body is a
try/except returning `[]` on any exception: a present file is parsed by
`json.load` (whose error is caught), an absent file (`none`) yields `[]`
inside the `else` branch.  The result is the normal return value — `.error`
would mean an uncaught exception. -/
def load_media_queue (qfile : Option QFileContents) :
    Except String (List QueueItem) :=
  match (match qfile with
         | some contents => jsonLoadQueue contents
         | none => .ok []) with
  | .ok queue => .ok queue
  | .error _ => .ok []

/-- The update loop of `mark_as_played_in_queue` (src/play_server.py lines
152-156): walk the re-read queue, and on the FIRST item whose `path` equals
the target's `path`, set `played = True` and `played_at` to the current time,
then `break`. -/
def markFirstPlayed (queue : List QueueItem) (targetPath : String) (now : Nat) :
    List QueueItem :=
  match queue with
  | [] => []
  | media :: rest =>
    if media.path = targetPath then
      { media with played := true, playedAt := some now } :: rest
    else
      media :: markFirstPlayed rest targetPath now

/-- `mark_as_played_in_queue` (src/play_server.py lines 146-162): re-read the
queue file, update the first matching item, rewrite the whole file; any
exception (absent file, malformed JSON) is caught and the file is left as it
was. -/
def mark_as_played_in_queue (qfile : Option QFileContents) (targetPath : String)
    (now : Nat) : Option QFileContents :=
  match qfile with
  | some (.wellFormed queue) =>
    some (.wellFormed (markFirstPlayed queue targetPath now))
  | other => other

/-- `self.play_mode` values. -/
inductive Mode
  | sequential
  | random
deriving DecidableEq

/-- What `get_next_media` returned: a queue item (priority path) or a
local-scan item (fallback path). -/
inductive Chosen
  | fromQueue (item : QueueItem)
  | fromScan (item : MediaItem)
deriving DecidableEq

/-- `get_next_media` (src/play_server.py lines 117-144).  `local_media` is
the result of `scan_local_media()`, `rand_pick` resolves `random.choice`, and
`now` is the current time used when marking a queue item played.  Returns the
chosen media (`none` = "no media"), the queue file after any
`mark_as_played_in_queue` write, and the new `current_index`.  In sequential
mode the code indexes `local_media[current_index]` BEFORE the modular
increment, so an index at or past the end raises `IndexError`
(an `Except.error`). -/
def get_next_media (qfile : Option QFileContents) (local_media : List MediaItem)
    (play_mode : Mode) (current_index : Nat) (rand_pick : Nat) (now : Nat) :
    Except String (Option Chosen × Option QFileContents × Nat) :=
  match load_media_queue qfile with
  | .error e => .error e
  | .ok queue_media =>
    match (if queue_media.isEmpty then none
           else (queue_media.filter (fun m => !m.played)).head?) with
    | some media =>
      .ok (some (.fromQueue media), mark_as_played_in_queue qfile media.path now,
        current_index)
    | none =>
      if local_media.isEmpty then .ok (none, qfile, current_index)
      else
        match play_mode with
        | .sequential =>
          match local_media[current_index]? with
          | some media =>
            .ok (some (.fromScan media), qfile,
              (current_index + 1) % local_media.length)
          | none => .error "IndexError"
        | .random =>
          match local_media[rand_pick % local_media.length]? with
          | some media => .ok (some (.fromScan media), qfile, current_index)
          | none => .error "IndexError"

lemma markFirstPlayed_split (a b : List QueueItem) (x : QueueItem) (p : String)
    (now : Nat) (hx : x.path = p) (ha : ∀ y ∈ a, y.path ≠ p) :
    markFirstPlayed (a ++ x :: b) p now =
      a ++ { x with played := true, playedAt := some now } :: b := by
  induction a with
  | nil => simp [markFirstPlayed, hx]
  | cons y rest ih =>
    have hy : y.path ≠ p := ha y (List.mem_cons_self y rest)
    simp [markFirstPlayed, hy, ih (fun z hz => ha z (List.mem_cons_of_mem y hz))]

lemma markFirstPlayed_path_map (queue : List QueueItem) (p : String) (now : Nat) :
    (markFirstPlayed queue p now).map QueueItem.path = queue.map QueueItem.path := by
  induction queue with
  | nil => rfl
  | cons a rest ih =>
    by_cases h : a.path = p
    · simp [markFirstPlayed, h]
    · simp [markFirstPlayed, h, ih]

lemma markFirstPlayed_idem (queue : List QueueItem) (p : String) (n1 n2 : Nat) :
    markFirstPlayed (markFirstPlayed queue p n1) p n2 =
      markFirstPlayed queue p n2 := by
  induction queue with
  | nil => rfl
  | cons a rest ih =>
    by_cases h : a.path = p
    · simp [markFirstPlayed, h]
    · simp [markFirstPlayed, h, ih]

lemma mark_as_played_in_queue_idem (qfile : Option QFileContents) (p : String)
    (n1 n2 : Nat) :
    mark_as_played_in_queue (mark_as_played_in_queue qfile p n1) p n2 =
      mark_as_played_in_queue qfile p n2 := by
  match qfile with
  | none => rfl
  | some (.malformed e) => rfl
  | some (.wellFormed q) =>
    simp [mark_as_played_in_queue, markFirstPlayed_idem]

lemma get_next_media_no_pending (qfile : Option QFileContents)
    (lm : List MediaItem) (play_mode : Mode) (idx rp now : Nat)
    (q : List QueueItem)
    (h1 : load_media_queue qfile = .ok q)
    (h2 : q.filter (fun m => !m.played) = [])
    (hlm : lm.isEmpty = false) :
    get_next_media qfile lm play_mode idx rp now =
      match play_mode with
      | .sequential =>
        match lm[idx]? with
        | some media =>
          .ok (some (.fromScan media), qfile, (idx + 1) % lm.length)
        | none => .error "IndexError"
      | .random =>
        match lm[rp % lm.length]? with
        | some media => .ok (some (.fromScan media), qfile, idx)
        | none => .error "IndexError" := by
  have hq : (if q.isEmpty then none
             else (q.filter (fun m => !m.played)).head?) = none := by
    cases q with
    | nil => rfl
    | cons a as => simp [h2]
  simp only [get_next_media, h1, hq, hlm, Bool.false_eq_true, if_false]

/-! ## Claim C9 -/

/-- Claim C9: `load_media_queue` never raises — its run always ends in a
normal return: an absent file yields `[]` (the `else` branch), a file
`json.load` rejects yields `[]` through the catch-all `except`, and a
well-formed file yields its items in file order. -/
theorem load_media_queue_total_spec (qfile : Option QFileContents)
    (err : String) (items : List QueueItem) :
    (∃ queue, load_media_queue qfile = .ok queue) ∧
    load_media_queue none = .ok [] ∧
    load_media_queue (some (.malformed err)) = .ok [] ∧
    load_media_queue (some (.wellFormed items)) = .ok items := by
  refine ⟨?_, rfl, rfl, rfl⟩
  match qfile with
  | none => exact ⟨[], rfl⟩
  | some (.malformed e) => exact ⟨[], rfl⟩
  | some (.wellFormed q) => exact ⟨q, rfl⟩

/-! ## Claim C7 -/

/-- Claim C7: `mark_as_played_in_queue` updates exactly the first item whose
`path` equals the target path — setting `played = true` and `playedAt` to the
current time, leaving every other entry and the order intact (the path
sequence and length of the stored queue are preserved) — and it is idempotent:
marking the same path twice equals marking it once (at the later timestamp),
so the item stays `played = true` and nothing is duplicated, deleted or
reordered. -/
theorem mark_as_played_in_queue_spec (a b queue : List QueueItem)
    (x : QueueItem) (p : String) (n1 n2 : Nat) (qfile : Option QFileContents)
    (hx : x.path = p) (ha : ∀ y ∈ a, y.path ≠ p) :
    mark_as_played_in_queue (some (.wellFormed (a ++ x :: b))) p n1 =
      some (.wellFormed
        (a ++ { x with played := true, playedAt := some n1 } :: b)) ∧
    (markFirstPlayed queue p n1).map QueueItem.path =
      queue.map QueueItem.path ∧
    (markFirstPlayed queue p n1).length = queue.length ∧
    mark_as_played_in_queue (mark_as_played_in_queue qfile p n1) p n2 =
      mark_as_played_in_queue qfile p n2 := by
  refine ⟨?_, markFirstPlayed_path_map queue p n1, ?_,
    mark_as_played_in_queue_idem qfile p n1 n2⟩
  · simp [mark_as_played_in_queue, markFirstPlayed_split a b x p n1 hx ha]
  · have h := congrArg List.length (markFirstPlayed_path_map queue p n1)
    simpa using h

/-- Claim C7 witness: marking `"q/x.png"` in a one-item queue sets
`played = true` with the timestamp, and marking it a second time gives the
same file as a single marking at the later time. -/
theorem mark_as_played_in_queue_spec_w :
    mark_as_played_in_queue
        (some (.wellFormed [⟨"q/x.png", "image", "x.png", false, none⟩]))
        "q/x.png" 5 =
      some (.wellFormed [⟨"q/x.png", "image", "x.png", true, some 5⟩]) ∧
    mark_as_played_in_queue
        (mark_as_played_in_queue
          (some (.wellFormed [⟨"q/x.png", "image", "x.png", false, none⟩]))
          "q/x.png" 5) "q/x.png" 9 =
      mark_as_played_in_queue
        (some (.wellFormed [⟨"q/x.png", "image", "x.png", false, none⟩]))
        "q/x.png" 9 := by
  have h := mark_as_played_in_queue_spec [] []
    [⟨"q/x.png", "image", "x.png", false, none⟩]
    ⟨"q/x.png", "image", "x.png", false, none⟩ "q/x.png" 5 9
    (some (.wellFormed [⟨"q/x.png", "image", "x.png", false, none⟩]))
    rfl (by simp)
  exact ⟨h.1, h.2.2.2⟩

/-! ## Claims C2 and C8 -/

/-- Claim C2 counterexample: with an empty queue file, a single local
candidate and `current_index = 2` (the list shrank since the index was last
set), the sequential branch evaluates `local_media[2]` BEFORE the modular
increment and raises `IndexError` — it does not return a valid candidate. -/
theorem get_next_media_shrink_cex :
    get_next_media none [⟨"shared_media/images/a.png", "image", "a.png"⟩]
      .sequential 2 0 0 = .error "IndexError" := by
  rfl

/-- Claim C2 (amended): in sequential mode (with nothing pending in the
queue), when `current_index < len(candidates)` the call returns
`candidates[current_index]` and advances the index to
`(current_index + 1) mod len(candidates)`, which is again in bounds for an
unchanged list; but the index access itself is not clamped — for any index at
or past the end of the (non-empty) candidate list the call raises
`IndexError` instead of returning a candidate, so the modulus does not
protect a call made after the candidate list shrank. -/
theorem get_next_media_sequential_spec (qfile : Option QFileContents)
    (lm : List MediaItem) (idx rp now : Nat) (q : List QueueItem)
    (m : MediaItem)
    (h1 : load_media_queue qfile = .ok q)
    (h2 : q.filter (fun x => !x.played) = [])
    (h3 : lm[idx]? = some m) :
    get_next_media qfile lm .sequential idx rp now =
      .ok (some (.fromScan m), qfile, (idx + 1) % lm.length) ∧
    (idx + 1) % lm.length < lm.length ∧
    (∀ j, j ≥ lm.length →
      get_next_media qfile lm .sequential j rp now = .error "IndexError") := by
  have hlen : idx < lm.length := (List.getElem?_eq_some.mp h3).1
  have hlm : lm.isEmpty = false := by
    cases lm with
    | nil => simp at hlen
    | cons a as => rfl
  refine ⟨?_, ?_, ?_⟩
  · rw [get_next_media_no_pending qfile lm .sequential idx rp now q h1 h2 hlm]
    simp [h3]
  · exact Nat.mod_lt _ (by omega)
  · intro j hj
    rw [get_next_media_no_pending qfile lm .sequential j rp now q h1 h2 hlm]
    simp [List.getElem?_eq_none hj]

/-- Claim C2 witness: the spec's wraparound example — candidates `[A, B, C]`
with `current_index = 2` yields `C` and the index wraps to `0`; and a call
with `current_index = 3` on the same three-element list raises `IndexError`. -/
theorem get_next_media_sequential_spec_w :
    get_next_media none
      [⟨"shared_media/images/a.png", "image", "a.png"⟩,
       ⟨"shared_media/images/b.png", "image", "b.png"⟩,
       ⟨"shared_media/videos/c.mp4", "video", "c.mp4"⟩]
      .sequential 2 0 0 =
      .ok (some (.fromScan ⟨"shared_media/videos/c.mp4", "video", "c.mp4"⟩),
        none, 0) ∧
    get_next_media none
      [⟨"shared_media/images/a.png", "image", "a.png"⟩,
       ⟨"shared_media/images/b.png", "image", "b.png"⟩,
       ⟨"shared_media/videos/c.mp4", "video", "c.mp4"⟩]
      .sequential 3 0 0 = .error "IndexError" := by
  have h := get_next_media_sequential_spec none
    [⟨"shared_media/images/a.png", "image", "a.png"⟩,
     ⟨"shared_media/images/b.png", "image", "b.png"⟩,
     ⟨"shared_media/videos/c.mp4", "video", "c.mp4"⟩]
    2 0 0 [] ⟨"shared_media/videos/c.mp4", "video", "c.mp4"⟩ rfl rfl rfl
  exact ⟨h.1, h.2.2 3 (by decide)⟩

/-- Claim C8: whenever the loaded queue has at least one unplayed item,
`get_next_media` returns the first unplayed item in file order, writes the
queue file back with that item marked played, and keeps `current_index`
untouched — for EVERY local-scan result and play mode, so the local scan is
never consulted; the returned item is an unplayed member of the queue. -/
theorem get_next_media_queue_priority (qfile : Option QFileContents)
    (lm : List MediaItem) (play_mode : Mode) (idx rp now : Nat)
    (q us : List QueueItem) (u : QueueItem)
    (h1 : load_media_queue qfile = .ok q)
    (h2 : q.filter (fun m => !m.played) = u :: us) :
    get_next_media qfile lm play_mode idx rp now =
      .ok (some (.fromQueue u), mark_as_played_in_queue qfile u.path now, idx) ∧
    u.played = false ∧ u ∈ q := by
  have hu : u ∈ q.filter (fun m => !m.played) := by
    rw [h2]; exact List.mem_cons_self u us
  have hmem := List.mem_filter.mp hu
  have hq : (if q.isEmpty then none
             else (q.filter (fun m => !m.played)).head?) = some u := by
    cases q with
    | nil => simp at h2
    | cons a as => simp [h2]
  refine ⟨?_, ?_, hmem.1⟩
  · simp only [get_next_media, h1, hq]
  · simpa using hmem.2

/-- Claim C8 witness: one unplayed queue item and a non-empty local scan —
the queue item is returned (marked played in the rewritten file), never the
scan result, and the index is untouched. -/
theorem get_next_media_queue_priority_w :
    get_next_media (some (.wellFormed [⟨"q/x.png", "image", "x.png", false, none⟩]))
      [⟨"shared_media/images/a.png", "image", "a.png"⟩] .sequential 0 0 5 =
      .ok (some (.fromQueue ⟨"q/x.png", "image", "x.png", false, none⟩),
        some (.wellFormed [⟨"q/x.png", "image", "x.png", true, some 5⟩]), 0) := by
  have h := (get_next_media_queue_priority
    (some (.wellFormed [⟨"q/x.png", "image", "x.png", false, none⟩]))
    [⟨"shared_media/images/a.png", "image", "a.png"⟩] .sequential 0 0 5
    [⟨"q/x.png", "image", "x.png", false, none⟩] []
    ⟨"q/x.png", "image", "x.png", false, none⟩ rfl rfl).1
  rw [h]
  rfl
